import Mathlib

/-!
Verification development for the appointment-admission core of the
fiap-health-med repository (`src/appointment_service`).

The Python source is embedded shallowly:

* `fromisoformat` models Python's `datetime.fromisoformat` restricted to the
  profile the service handles (`YYYY-MM-DD` optionally followed by a single
  separator character and `HH[:MM[:SS]]`; no fractional seconds, no offsets),
  returning `none` where Python raises.
* `strptimeHM` models `datetime.strptime(s, "%H:%M").time()`.
* `daysFromCivil`/`instant` model the proleptic-Gregorian subtraction behind
  `(d1 - d2).total_seconds()` for whole-second datetimes.
* `check_availability`, `create_appointment`, `get_doctor_appointments` are
  translated statement by statement from
  `src/domain/services/appointment_service.py`; the DynamoDB repository calls
  of `src/infrastructure/database/dynamodb_appointment_repository.py` are
  modelled by explicit store state plus flags for the failure modes the
  repository catches.  An uncaught Python exception is `Except.error ()`.
-/

/-- Value of a decimal digit character, `none` otherwise. -/
def digitVal (c : Char) : Option Nat :=
  if c.isDigit then some (c.toNat - 48) else none

/-- Two decimal digits as a number. -/
def twoDigits (a b : Char) : Option Nat := do
  let x ← digitVal a
  let y ← digitVal b
  pure (10 * x + y)

/-- Leap-year test of the proleptic Gregorian calendar (Python `calendar.isleap`). -/
def isLeap (y : Nat) : Bool :=
  y % 4 == 0 && (y % 100 != 0 || y % 400 == 0)

/-- Days in a month, as validated by Python `datetime`. -/
def daysInMonth (y m : Nat) : Nat :=
  if m == 2 then (if isLeap y then 29 else 28)
  else if m == 4 || m == 6 || m == 9 || m == 11 then 30
  else 31

/-- A parsed datetime: calendar date plus seconds since midnight.  This is the
shadow of the Python `datetime` objects the service builds (they carry no
timezone and at most second precision on the profile in use). -/
structure PyDateTime where
  year : Nat
  month : Nat
  day : Nat
  timeSec : Nat
  deriving Repr, DecidableEq

/-- Day serial number of a civil date (proleptic Gregorian), Hinnant's
`days_from_civil` without the epoch shift; only differences of `instant`
values are ever used, so the shift is irrelevant. -/
def daysFromCivil (year m d : Nat) : Nat :=
  let y := if m ≤ 2 then year - 1 else year
  let era := y / 400
  let yoe := y - era * 400
  let doy := (153 * (if m > 2 then m - 3 else m + 9) + 2) / 5 + (d - 1)
  let doe := yoe * 365 + yoe / 4 - yoe / 100 + doy
  era * 146097 + doe

/-- The instant of a datetime in seconds, so that
`instant a - instant b` equals Python's `(a - b).total_seconds()`. -/
def instant (dt : PyDateTime) : Int :=
  (daysFromCivil dt.year dt.month dt.day * 86400 + dt.timeSec : Nat)

/-- Time-of-day part `HH[:MM[:SS]]` of an ISO string, as accepted by
`datetime.fromisoformat`.  Returns seconds since midnight. -/
def parseHMS (cs : List Char) : Option Nat :=
  match cs with
  | [h1, h2] => do
      let h ← twoDigits h1 h2
      if h ≤ 23 then pure (h * 3600) else none
  | [h1, h2, ':', m1, m2] => do
      let h ← twoDigits h1 h2
      let m ← twoDigits m1 m2
      if h ≤ 23 && m ≤ 59 then pure (h * 3600 + m * 60) else none
  | [h1, h2, ':', m1, m2, ':', s1, s2] => do
      let h ← twoDigits h1 h2
      let m ← twoDigits m1 m2
      let s ← twoDigits s1 s2
      if h ≤ 23 && m ≤ 59 && s ≤ 59 then pure (h * 3600 + m * 60 + s) else none
  | _ => none

/-- Date part `YYYY-MM-DD`; returns the date and the remaining characters. -/
def parseYMD (cs : List Char) : Option (Nat × Nat × Nat × List Char) :=
  match cs with
  | y1 :: y2 :: y3 :: y4 :: '-' :: m1 :: m2 :: '-' :: d1 :: d2 :: rest => do
      let a ← digitVal y1
      let b ← digitVal y2
      let c ← digitVal y3
      let e ← digitVal y4
      let y := 1000 * a + 100 * b + 10 * c + e
      let m ← twoDigits m1 m2
      let d ← twoDigits d1 d2
      if 1 ≤ y && 1 ≤ m && m ≤ 12 && 1 ≤ d && d ≤ daysInMonth y m then
        pure (y, m, d, rest)
      else none
  | _ => none

/-- Python `datetime.fromisoformat` on the profile in use: `YYYY-MM-DD`, then
optionally any single separator character and `HH[:MM[:SS]]`.  `none` models a
raised `ValueError`. -/
def fromisoformat (s : String) : Option PyDateTime :=
  match parseYMD s.toList with
  | none => none
  | some (y, m, d, rest) =>
    match rest with
    | [] => some ⟨y, m, d, 0⟩
    | _sep :: timecs =>
      match parseHMS timecs with
      | none => none
      | some t => some ⟨y, m, d, t⟩

/-- Split a character list at every occurrence of `sep`; the single-character
case of Python's `str.split(sep)` (always returns at least one part). -/
def splitOnChar (sep : Char) : List Char → List (List Char)
  | [] => [[]]
  | c :: cs =>
    let r := splitOnChar sep cs
    if c == sep then [] :: r
    else
      match r with
      | [] => [[c]]
      | g :: gs => (c :: g) :: gs

/-- Python `datetime.strptime(s, "%H:%M").time()` as seconds since midnight
(`%H` and `%M` each accept one or two digits). -/
def strptimeHM (s : String) : Option Nat :=
  match splitOnChar ':' s.toList with
  | [hs, ms] => do
      let h ← (match hs with
               | [a] => digitVal a
               | [a, b] => twoDigits a b
               | _ => none)
      let m ← (match ms with
               | [a] => digitVal a
               | [a, b] => twoDigits a b
               | _ => none)
      if h ≤ 23 && m ≤ 59 then pure (h * 3600 + m * 60) else none
  | _ => none

/-- Python `s.split(" ")` on a string, as a list of strings. -/
def splitSpace (s : String) : List String :=
  (splitOnChar ' ' s.toList).map String.mk

/-- Python `s.split(" ")[0]` (never raises: `split` returns at least one part). -/
def splitSpaceHead (s : String) : String :=
  (splitSpace s).headD ""

/-- Python `s[0:10]`. -/
def first10 (s : String) : String :=
  String.mk (s.toList.take 10)

/-- The availability payload returned by the availability service: a JSON
object mapping a date string to its list of `{start_time, end_time}` slots. -/
abbrev AvailMap := List (String × List (String × String))

/-- Outcome of the HTTP fetch in `check_availability`:
a 200 response with a payload, a non-200 status, or a raised
`requests.RequestException`. -/
inductive AvailFetch where
  | ok (m : AvailMap)
  | httpError
  | requestException
  deriving Repr, DecidableEq

/-- The `any(...)` generator over the slot list in `check_availability`,
with Python's lazy evaluation: `strptime(start) <= t < strptime(end)` parses
`end` only when `start <= t` holds, and a `ValueError` from `strptime`
(modelled as `.error ()`) aborts the scan. -/
def slotScan (t : Nat) : List (String × String) → Except Unit Bool
  | [] => .ok false
  | (s, e) :: rest =>
    match strptimeHM s with
    | none => .error ()
    | some ts =>
      if ts ≤ t then
        match strptimeHM e with
        | none => .error ()
        | some te => if t < te then .ok true else slotScan t rest
      else slotScan t rest

/-- `AppointmentService.check_availability` (appointment_service.py lines
92-147).  All statements sit in one `try`: a non-200 status or a
`RequestException` yield their dedicated messages, and any other exception —
in particular a `ValueError` from parsing `date_time` or a slot — is caught
by the final handler and yields the unexpected-error message. -/
def check_availability (fetch : AvailFetch) (date_time : String) :
    Bool × String :=
  match fetch with
  | .httpError => (false, "Failed to check availability")
  | .requestException => (false, "Error while checking availability")
  | .ok availability =>
    let appointment_date := splitSpaceHead date_time
    match fromisoformat date_time with
    | none => (false, "Unexpected error while checking availability")
    | some dt =>
      let appointment_time := dt.timeSec
      let date_part := first10 appointment_date
      match availability.lookup date_part with
      | none => (false, "Selected date is not available")
      | some slots =>
        match slotScan appointment_time slots with
        | .error _ => (false, "Unexpected error while checking availability")
        | .ok true => (true, "Time is available")
        | .ok false => (false, "Selected time is not available")

/-- The request body of `POST /appointments` (`src/common/dto.py`). -/
structure Appointment where
  doctor_email : String
  patient_email : String
  date_time : String
  deriving Repr, DecidableEq

/-- A row of the `appointments` table: the request fields plus the generated
`id` (the `appointment_dict` written by `create_appointment`). -/
structure StoredAppt where
  doctor_email : String
  patient_email : String
  date_time : String
  id : String
  deriving Repr, DecidableEq

/-- The `appointments` table contents. -/
abbrev Store := List StoredAppt

/-- `DynamoDBAppointmentRepository.get_doctor_appointments` (repository lines
57-74): on success the rows whose `doctor_email` matches; on a caught
`ClientError` the function logs and returns the EMPTY list. -/
def repoGetDoctorAppointments (fetchOk : Bool) (store : Store)
    (doctor_email : String) : Store :=
  if fetchOk then store.filter (fun a => a.doctor_email == doctor_email)
  else []

/-- `DynamoDBAppointmentRepository.create_appointment` (repository lines
18-40): `put_item` with `attribute_not_exists(id)`.  A
`ConditionalCheckFailedException` (the id already exists) returns `false`
with the store unchanged; any other `ClientError` (`otherError`) also returns
`false` with the store unchanged; otherwise the row is appended and the call
returns `true`. -/
def repoCreateAppointment (store : Store) (a : StoredAppt)
    (otherError : Bool) : Bool × Store :=
  if store.any (fun x => x.id == a.id) then (false, store)
  else if otherError then (false, store)
  else (true, store ++ [a])

/-- The hard-coded minimum separation of `create_appointment`
(`< 3600  # less than 1 hour difference`). -/
def min_gap_seconds : Int := 3600

/-- The `any(...)` generator computing `is_conflicting` (appointment_service
lines 48-58), with Python's lazy `and`: the stored `date_time` is parsed only
when its `split(" ")[0]` equals the candidate's, and a parse failure there is
NOT caught by any handler (`.error ()`). -/
def conflictScan (gap : Int) (candKey : String) (candInstant : Int) :
    List String → Except Unit Bool
  | [] => .ok false
  | e :: rest =>
    if splitSpaceHead e == candKey then
      match fromisoformat e with
      | none => .error ()
      | some d =>
        if |instant d - candInstant| < gap then .ok true
        else conflictScan gap candKey candInstant rest
    else conflictScan gap candKey candInstant rest

/-- Everything `create_appointment` consumes besides the request and the
store: the availability fetch outcome, whether the appointment-table query
raises `ClientError`, whether the `put_item` hits a non-conditional
`ClientError`, the email feature flag with the SMTP outcome, and the
generated `uuid4` id. -/
structure Env where
  availFetch : AvailFetch
  apptFetchOk : Bool
  putOtherError : Bool
  emailEnabled : Bool
  emailOk : Bool
  newId : String
  deriving Repr, DecidableEq

/-- `AppointmentService.create_appointment` (appointment_service lines
28-89).  The value is the `(success, message)` pair returned to the API
adapter, the store after the call, and the list of notification attempts
(appointment, smtp outcome); `.error ()` is an uncaught exception. -/
def create_appointment (env : Env) (store : Store) (appt : Appointment) :
    Except Unit ((Bool × String) × Store × List (StoredAppt × Bool)) :=
  let (availability, error_msg) :=
    check_availability env.availFetch appt.date_time
  if !availability then .ok ((false, error_msg), store, [])
  else
    let existing :=
      repoGetDoctorAppointments env.apptFetchOk store appt.doctor_email
    let appointment_date := splitSpaceHead appt.date_time
    match fromisoformat appt.date_time with
    | none => .error ()
    | some candDT =>
      match conflictScan min_gap_seconds appointment_date (instant candDT)
          (existing.map (fun a => a.date_time)) with
      | .error _ => .error ()
      | .ok true =>
        .ok ((false,
          "Appointment time conflicts with an existing appointment within 1 hour"),
          store, [])
      | .ok false =>
        let newAppt : StoredAppt :=
          ⟨appt.doctor_email, appt.patient_email, appt.date_time, env.newId⟩
        let (success, store') :=
          repoCreateAppointment store newAppt env.putOtherError
        if !success then
          .ok ((false, "Failed to create appointment"), store', [])
        else
          let emails := if env.emailEnabled then [(newAppt, env.emailOk)] else []
          .ok ((true, "Appointment created successfully"), store', emails)

/-- Sequential admissions: each request is fully processed before the next
one starts, threading the store.  Returns the `(success, message)` outcomes
in order and the final store. -/
def runSeq : Store → List (Env × Appointment) →
    Except Unit (List (Bool × String) × Store)
  | store, [] => .ok ([], store)
  | store, (env, a) :: rest =>
    match create_appointment env store a with
    | .error e => .error e
    | .ok (out, store', _) =>
      match runSeq store' rest with
      | .error e => .error e
      | .ok (outs, final) => .ok (out :: outs, final)

/-- The dict-building step of `get_doctor_appointments`: append the time to
the date's list, creating the key at the end on first sight (Python dicts
keep insertion order). -/
def addEntry (acc : List (String × List String)) (d t : String) :
    List (String × List String) :=
  if acc.any (fun p => p.1 == d) then
    acc.map (fun p => if p.1 == d then (p.1, p.2 ++ [t]) else p)
  else acc ++ [(d, [t])]

/-- The formatting loop of `AppointmentService.get_doctor_appointments`
(appointment_service lines 160-168): `split(" ")[0]` is the date key,
`split(" ")[1][:5]` the time; when the split has no second part the `[1]`
raises `IndexError` (`.error ()`). -/
def formatLoop (acc : List (String × List String)) :
    List String → Except Unit (List (String × List String))
  | [] => .ok acc
  | s :: rest =>
    match splitSpace s with
    | _ :: p1 :: _ =>
      formatLoop (addEntry acc (splitSpaceHead s) (String.mk (p1.toList.take 5)))
        rest
    | _ => .error ()

/-- `AppointmentService.get_doctor_appointments` (appointment_service lines
149-170) on the raw `date_time` strings of the fetched rows. -/
def formatAppointments (dateTimes : List String) :
    Except Unit (List (String × List String)) :=
  formatLoop [] dateTimes

/-- The service function as reached from the API route
`GET /appointments/doctor/{doctor_email}` (`src/adapters/api.py` lines
23-32): fetch the doctor's rows (empty on a caught `ClientError`) and format
them. -/
def get_doctor_appointments (fetchOk : Bool) (store : Store)
    (doctor_email : String) :
    Except Unit (List (String × List String)) :=
  formatAppointments
    ((repoGetDoctorAppointments fetchOk store doctor_email).map
      (fun a => a.date_time))

/-- The separation property the spec's invariant asks of a doctor's committed
appointments, expressed on two stored rows: same doctor and same
split-on-space date key force both `date_time`s to parse and their instants
to be at least `min_gap_seconds` apart. -/
def SepRel (a b : StoredAppt) : Prop :=
  a.doctor_email = b.doctor_email →
  splitSpaceHead a.date_time = splitSpaceHead b.date_time →
  ∃ da db, fromisoformat a.date_time = some da ∧
    fromisoformat b.date_time = some db ∧
    min_gap_seconds ≤ |instant da - instant db|

/-- Pairwise separation of a whole store. -/
def SeparatedStore (store : Store) : Prop :=
  store.Pairwise SepRel

/-- The `HH:MM` string `get_doctor_appointments` extracts from a stored
`date_time` (`split(" ")[1][:5]`), as a total function on well-split input. -/
def timePart (s : String) : String :=
  match splitSpace s with
  | _ :: t :: _ => String.mk (t.toList.take 5)
  | _ => ""

/-- The times `get_doctor_appointments` should list under date key `d`. -/
def groupTimes (l : List String) (d : String) : List String :=
  (l.filter (fun s => splitSpaceHead s == d)).map timePart

/-- Availability payload used by the concrete scenarios: doctor available on
2024-01-10 with the single window 09:00-12:00. -/
def availJan10 : AvailMap := [("2024-01-10", [("09:00", "12:00")])]

/-- Environment of a failure-free sequential admission against `availJan10`
(email disabled, fresh id supplied). -/
def envSeq (id : String) : Env :=
  ⟨.ok availJan10, true, false, false, false, id⟩

/-- A request for doctor D in the concrete scenarios. -/
def reqD (dt : String) : Appointment :=
  ⟨"doctor@x.com", "patient@x.com", dt⟩

/-- If the conflict scan finishes with `false`, then every entry whose
split-on-space key equals the candidate's parses successfully and lies at
least `gap` seconds from the candidate. -/
theorem conflictScan_false_sound {gap : Int} {key : String} {inst : Int} :
    ∀ {l : List String}, conflictScan gap key inst l = .ok false →
    ∀ e ∈ l, splitSpaceHead e = key →
      ∃ d, fromisoformat e = some d ∧ gap ≤ |instant d - inst| := by
  intro l
  induction l with
  | nil => intro _ e he; simp at he
  | cons x rest ih =>
    intro h e he hkey
    simp only [conflictScan] at h
    rcases List.mem_cons.mp he with rfl | he'
    · rw [if_pos (beq_iff_eq.mpr hkey)] at h
      cases hfx : fromisoformat e with
      | none => rw [hfx] at h; exact absurd h (by simp)
      | some d =>
        rw [hfx] at h
        simp only [] at h
        by_cases hlt : |instant d - inst| < gap
        · rw [if_pos hlt] at h; exact absurd h (by simp)
        · exact ⟨d, rfl, le_of_not_lt hlt⟩
    · by_cases hx : splitSpaceHead x = key
      · rw [if_pos (beq_iff_eq.mpr hx)] at h
        cases hfx : fromisoformat x with
        | none => rw [hfx] at h; exact absurd h (by simp)
        | some d =>
          rw [hfx] at h
          simp only [] at h
          by_cases hlt : |instant d - inst| < gap
          · rw [if_pos hlt] at h; exact absurd h (by simp)
          · rw [if_neg hlt] at h; exact ih h e he' hkey
      · rw [if_neg (by simpa using hx)] at h
        exact ih h e he' hkey

/-- On a list whose key-matching entries all parse, the conflict scan
reports `true` exactly when some entry matches the key within the gap. -/
theorem conflictScan_true_iff {gap : Int} {key : String} {inst : Int} :
    ∀ {l : List String},
    (∀ e ∈ l, splitSpaceHead e = key → (fromisoformat e).isSome) →
    (conflictScan gap key inst l = .ok true ↔
      ∃ e ∈ l, splitSpaceHead e = key ∧
        ∃ d, fromisoformat e = some d ∧ |instant d - inst| < gap) := by
  intro l
  induction l with
  | nil => intro _; simp [conflictScan]
  | cons x rest ih =>
    intro hp
    have hrest := fun e he hk => hp e (List.mem_cons_of_mem x he) hk
    simp only [conflictScan]
    by_cases hx : splitSpaceHead x = key
    · rw [if_pos (beq_iff_eq.mpr hx)]
      cases hfx : fromisoformat x with
      | none =>
        have := hp x (List.mem_cons_self x rest) hx
        rw [hfx] at this; simp at this
      | some d =>
        simp only []
        by_cases hlt : |instant d - inst| < gap
        · rw [if_pos hlt]
          constructor
          · intro _
            exact ⟨x, List.mem_cons_self x rest, hx, d, hfx, hlt⟩
          · intro _; rfl
        · rw [if_neg hlt, ih hrest]
          constructor
          · rintro ⟨e, he', hk, d', hd', hlt'⟩
            exact ⟨e, List.mem_cons_of_mem x he', hk, d', hd', hlt'⟩
          · rintro ⟨e, he, hk, d', hd', hlt'⟩
            rcases List.mem_cons.mp he with rfl | he'
            · rw [hfx] at hd'
              cases hd'
              exact absurd hlt' hlt
            · exact ⟨e, he', hk, d', hd', hlt'⟩
    · rw [if_neg (by simpa using hx), ih hrest]
      constructor
      · rintro ⟨e, he', hk, d', hd', hlt'⟩
        exact ⟨e, List.mem_cons_of_mem x he', hk, d', hd', hlt'⟩
      · rintro ⟨e, he, hk, d', hd', hlt'⟩
        rcases List.mem_cons.mp he with rfl | he'
        · exact absurd hk hx
        · exact ⟨e, he', hk, d', hd', hlt'⟩

/-- On a slot list whose bounds all parse, the scan reports `true` exactly
when some window contains the time under half-open semantics. -/
theorem slotScan_true_iff {t : Nat} :
    ∀ {slots : List (String × String)},
    (∀ p ∈ slots, (strptimeHM p.1).isSome ∧ (strptimeHM p.2).isSome) →
    (slotScan t slots = .ok true ↔
      ∃ p ∈ slots, ∃ a b, strptimeHM p.1 = some a ∧ strptimeHM p.2 = some b ∧
        a ≤ t ∧ t < b) := by
  intro slots
  induction slots with
  | nil => intro _; simp [slotScan]
  | cons x rest ih =>
    intro hp
    have hrest := fun p hm => hp p (List.mem_cons_of_mem x hm)
    obtain ⟨hs, he⟩ := hp x (List.mem_cons_self x rest)
    obtain ⟨x1, x2⟩ := x
    obtain ⟨a, ha⟩ := Option.isSome_iff_exists.mp hs
    obtain ⟨b, hb⟩ := Option.isSome_iff_exists.mp he
    simp only [slotScan, ha, hb]
    by_cases hat : a ≤ t
    · rw [if_pos hat]
      by_cases htb : t < b
      · rw [if_pos htb]
        constructor
        · intro _
          exact ⟨(x1, x2), List.mem_cons_self _ rest, a, b, ha, hb, hat, htb⟩
        · intro _; rfl
      · rw [if_neg htb, ih hrest]
        constructor
        · rintro ⟨p, hm, a', b', ha', hb', h1, h2⟩
          exact ⟨p, List.mem_cons_of_mem _ hm, a', b', ha', hb', h1, h2⟩
        · rintro ⟨p, hm, a', b', ha', hb', h1, h2⟩
          rcases List.mem_cons.mp hm with rfl | hm'
          · rw [ha] at ha'; rw [hb] at hb'
            cases ha'; cases hb'
            exact absurd h2 htb
          · exact ⟨p, hm', a', b', ha', hb', h1, h2⟩
    · rw [if_neg hat, ih hrest]
      constructor
      · rintro ⟨p, hm, a', b', ha', hb', h1, h2⟩
        exact ⟨p, List.mem_cons_of_mem _ hm, a', b', ha', hb', h1, h2⟩
      · rintro ⟨p, hm, a', b', ha', hb', h1, h2⟩
        rcases List.mem_cons.mp hm with rfl | hm'
        · rw [ha] at ha'
          cases ha'
          exact absurd h1 hat
        · exact ⟨p, hm', a', b', ha', hb', h1, h2⟩

/-- A request that passes the availability check has a well-formed
`date_time`, and the success message is the fixed one. -/
theorem check_availability_true {f : AvailFetch} {s msg : String}
    (h : check_availability f s = (true, msg)) :
    ∃ dt, fromisoformat s = some dt ∧ msg = "Time is available" := by
  cases f with
  | httpError => exact absurd h (by simp [check_availability])
  | requestException => exact absurd h (by simp [check_availability])
  | ok m =>
    simp only [check_availability] at h
    cases hfx : fromisoformat s with
    | none => rw [hfx] at h; exact absurd h (by simp)
    | some dt =>
      rw [hfx] at h
      simp only [] at h
      refine ⟨dt, rfl, ?_⟩
      split at h
      · exact absurd h (by simp)
      · split at h
        · exact absurd h (by simp)
        · exact (Prod.mk.injEq .. ▸ h).2.symm ▸ rfl
        · exact absurd h (by simp)

/-- The availability check never returns the conflict message of
`create_appointment`. -/
theorem check_availability_ne_conflict (f : AvailFetch) (s : String) :
    (check_availability f s).2 ≠
      "Appointment time conflicts with an existing appointment within 1 hour" := by
  cases f with
  | httpError => simp [check_availability]
  | requestException => simp [check_availability]
  | ok m =>
    simp only [check_availability]
    cases hfx : fromisoformat s with
    | none => simp
    | some dt =>
      simp only []
      split
      · simp
      · split <;> simp

/-- One sequential admission preserves pairwise separation of the store,
provided the appointment fetch succeeds. -/
theorem create_appointment_preserves {env : Env} {store : Store}
    {appt : Appointment} {out : Bool × String} {store' : Store}
    {em : List (StoredAppt × Bool)}
    (hfetch : env.apptFetchOk = true)
    (h : create_appointment env store appt = .ok (out, store', em))
    (hsep : SeparatedStore store) :
    SeparatedStore store' := by
  unfold create_appointment at h
  rw [hfetch] at h
  split at h
  next av msg hca =>
  cases av with
  | false =>
    simp only [Bool.not_false, if_true, Except.ok.injEq, Prod.mk.injEq] at h
    rw [← h.2.1]
    exact hsep
  | true =>
    simp only [Bool.not_true, Bool.false_eq_true, if_false] at h
    split at h
    next hfx => exact absurd h (by simp)
    next candDT hfx =>
    split at h
    next hcs => exact absurd h (by simp)
    next hcs =>
      simp only [Except.ok.injEq, Prod.mk.injEq] at h
      rw [← h.2.1]
      exact hsep
    next hcs =>
      simp only [repoGetDoctorAppointments, if_true] at hcs
      simp only [repoCreateAppointment] at h
      split at h
      next =>
        simp only [Bool.not_false, if_true, Except.ok.injEq, Prod.mk.injEq] at h
        rw [← h.2.1]
        exact hsep
      next =>
        split at h
        next =>
          simp only [Bool.not_false, if_true, Except.ok.injEq, Prod.mk.injEq] at h
          rw [← h.2.1]
          exact hsep
        next =>
          simp only [Bool.not_true, Bool.false_eq_true, if_false,
            Except.ok.injEq, Prod.mk.injEq] at h
          rw [← h.2.1]
          unfold SeparatedStore
          rw [List.pairwise_append]
          refine ⟨hsep, List.pairwise_singleton _ _, ?_⟩
          intro x hx y hy
          rw [List.mem_singleton] at hy
          subst hy
          intro hdoc hkey
          have hmem : x.date_time ∈
              (store.filter
                (fun a => a.doctor_email == appt.doctor_email)).map
                (fun a => a.date_time) :=
            List.mem_map_of_mem _
              (List.mem_filter.mpr ⟨hx, beq_iff_eq.mpr hdoc⟩)
          obtain ⟨dx, hdx, hge⟩ :=
            conflictScan_false_sound hcs x.date_time hmem hkey
          exact ⟨dx, candDT, hdx, hfx, hge⟩

/-- Sequential admissions preserve pairwise separation when every step's
appointment fetch succeeds. -/
theorem runSeq_preserves :
    ∀ (steps : List (Env × Appointment)) {store : Store}
      {outs : List (Bool × String)} {final : Store},
    (∀ s ∈ steps, s.1.apptFetchOk = true) →
    runSeq store steps = .ok (outs, final) →
    SeparatedStore store → SeparatedStore final := by
  intro steps
  induction steps with
  | nil =>
    intro store outs final _ h hsep
    simp only [runSeq, Except.ok.injEq, Prod.mk.injEq] at h
    rw [← h.2]
    exact hsep
  | cons s rest ih =>
    intro store outs final hf h hsep
    obtain ⟨env, a⟩ := s
    simp only [runSeq] at h
    split at h
    next heq => exact absurd h (by simp)
    next out store1 em heq =>
      split at h
      next heq2 => exact absurd h (by simp)
      next outs1 final1 heq2 =>
        simp only [Except.ok.injEq, Prod.mk.injEq] at h
        rw [← h.2]
        exact ih (fun s hs => hf s (List.mem_cons_of_mem _ hs)) heq2
          (create_appointment_preserves
            (hf (env, a) (List.mem_cons_self _ _)) heq hsep)

/-- C1 (corrected), counterexample: starting from an empty store, two
sequential admissions for the same doctor with ISO `T`-separated instants
(the separator the spec's own scenarios use) are BOTH committed even though
their date components — the first 10 characters of the profile, per the
spec's definition of the date key — are equal and their start instants
differ by only 1800 s < 3600 s.  The conflict check keys on
`split(" ")[0]`, which for `T`-separated strings is the whole string, so the
two are never compared. -/
theorem C1_counterexample :
    runSeq [] [(envSeq "id-1", reqD "2024-01-10T09:00:00"),
               (envSeq "id-2", reqD "2024-01-10T09:30:00")] =
      .ok ([(true, "Appointment created successfully"),
            (true, "Appointment created successfully")],
           [⟨"doctor@x.com", "patient@x.com", "2024-01-10T09:00:00", "id-1"⟩,
            ⟨"doctor@x.com", "patient@x.com", "2024-01-10T09:30:00", "id-2"⟩]) ∧
    first10 "2024-01-10T09:00:00" = first10 "2024-01-10T09:30:00" ∧
    fromisoformat "2024-01-10T09:00:00" = some ⟨2024, 1, 10, 32400⟩ ∧
    fromisoformat "2024-01-10T09:30:00" = some ⟨2024, 1, 10, 34200⟩ ∧
    |instant ⟨2024, 1, 10, 32400⟩ - instant ⟨2024, 1, 10, 34200⟩| = 1800 ∧
    (1800 : Int) < min_gap_seconds :=
  ⟨rfl, by decide, by decide, by decide, by decide, by decide⟩

/-- C1 (corrected), amended claim: starting from an empty appointment store
and applying any sequence of sequential `create_appointment` admissions in
which every appointment fetch succeeds, any two committed appointments for
the same doctor whose date components AS COMPUTED BY THE CODE — the
`split(" ")[0]` key of the stored `date_time`, which equals the calendar
date exactly on the space-separated profile `YYYY-MM-DD HH:MM:SS` — are
equal have start instants at least `min_gap_seconds` (3600 s) apart. -/
theorem C1_separation (steps : List (Env × Appointment))
    (outs : List (Bool × String)) (final : Store)
    (hf : ∀ s ∈ steps, s.1.apptFetchOk = true)
    (h : runSeq [] steps = .ok (outs, final)) :
    SeparatedStore final :=
  runSeq_preserves steps hf h List.Pairwise.nil

/-- C1 witness: a concrete two-admission run (09:00 and 10:30, same doctor
and date) whose final store the amended theorem proves separated. -/
theorem C1_separation_witness :
    SeparatedStore
      [⟨"doctor@x.com", "patient@x.com", "2024-01-10 09:00:00", "id-1"⟩,
       ⟨"doctor@x.com", "patient@x.com", "2024-01-10 10:30:00", "id-2"⟩] :=
  C1_separation
    [(envSeq "id-1", reqD "2024-01-10 09:00:00"),
     (envSeq "id-2", reqD "2024-01-10 10:30:00")]
    [(true, "Appointment created successfully"),
     (true, "Appointment created successfully")]
    [⟨"doctor@x.com", "patient@x.com", "2024-01-10 09:00:00", "id-1"⟩,
     ⟨"doctor@x.com", "patient@x.com", "2024-01-10 10:30:00", "id-2"⟩]
    (by decide) rfl

/-- C2 (corrected), counterexample: with the appointment-table query raising
`ClientError` (fetch flag `false`), a request 1800 s from an existing booking
of the same doctor is COMMITTED and written, because the repository catches
the error and returns the empty list — the exact outcome the claim rules
out (`Rejected(upstream_unavailable)`, nothing written). -/
theorem C2_counterexample :
    create_appointment ⟨.ok availJan10, false, false, false, false, "id-2"⟩
      [⟨"doctor@x.com", "patient@x.com", "2024-01-10 09:00:00", "id-1"⟩]
      (reqD "2024-01-10 09:30:00") =
      .ok ((true, "Appointment created successfully"),
           [⟨"doctor@x.com", "patient@x.com", "2024-01-10 09:00:00", "id-1"⟩,
            ⟨"doctor@x.com", "patient@x.com", "2024-01-10 09:30:00", "id-2"⟩],
           []) ∧
    repoGetDoctorAppointments false
      [⟨"doctor@x.com", "patient@x.com", "2024-01-10 09:00:00", "id-1"⟩]
      "doctor@x.com" = [] :=
  ⟨rfl, rfl⟩

/-- C2 (corrected), amended claim: when the appointment fetch fails, the
repository returns the EMPTY list — the failure is treated exactly as "no
appointments" — so the conflict rejection can never be produced; the request
proceeds to the availability verdict or to the committing write instead of
being rejected with an upstream-unavailable reason. -/
theorem C2_fetch_failure (env : Env) (store : Store) (appt : Appointment)
    (out : Bool × String) (store1 : Store) (em : List (StoredAppt × Bool))
    (hfail : env.apptFetchOk = false)
    (h : create_appointment env store appt = .ok (out, store1, em)) :
    repoGetDoctorAppointments env.apptFetchOk store appt.doctor_email = [] ∧
    out.2 ≠
      "Appointment time conflicts with an existing appointment within 1 hour" := by
  refine ⟨by rw [hfail]; rfl, ?_⟩
  unfold create_appointment at h
  rw [hfail] at h
  split at h
  next av msg hca =>
  cases av with
  | false =>
    simp only [Bool.not_false, if_true, Except.ok.injEq, Prod.mk.injEq] at h
    rw [← h.1]
    have hne := check_availability_ne_conflict env.availFetch appt.date_time
    rw [hca] at hne
    simpa using hne
  | true =>
    simp only [Bool.not_true, Bool.false_eq_true, if_false,
      repoGetDoctorAppointments] at h
    split at h
    next hfx => exact absurd h (by simp)
    next candDT hfx =>
      simp only [List.map_nil, conflictScan] at h
      split at h
      next =>
        simp only [Bool.not_false, if_true, Except.ok.injEq, Prod.mk.injEq] at h
        rw [← h.1]
        decide
      next =>
        split at h
        next =>
          simp only [Bool.not_false, if_true, Except.ok.injEq,
            Prod.mk.injEq] at h
          rw [← h.1]
          decide
        next =>
          simp only [Bool.not_true, Bool.false_eq_true, if_false,
            Except.ok.injEq, Prod.mk.injEq] at h
          rw [← h.1]
          decide

/-- C2 witness: the amended theorem applied to the counterexample run. -/
theorem C2_fetch_failure_witness :
    repoGetDoctorAppointments false
      [⟨"doctor@x.com", "patient@x.com", "2024-01-10 09:00:00", "id-1"⟩]
      "doctor@x.com" = [] ∧
    ((true, "Appointment created successfully") : Bool × String).2 ≠
      "Appointment time conflicts with an existing appointment within 1 hour" :=
  C2_fetch_failure ⟨.ok availJan10, false, false, false, false, "id-2"⟩
    [⟨"doctor@x.com", "patient@x.com", "2024-01-10 09:00:00", "id-1"⟩]
    (reqD "2024-01-10 09:30:00")
    (true, "Appointment created successfully")
    [⟨"doctor@x.com", "patient@x.com", "2024-01-10 09:00:00", "id-1"⟩,
     ⟨"doctor@x.com", "patient@x.com", "2024-01-10 09:30:00", "id-2"⟩]
    [] rfl rfl

/-- A scan over entries none of which matches the key reports no conflict. -/
theorem conflictScan_no_key {gap : Int} {key : String} {inst : Int} :
    ∀ {l : List String}, (∀ e ∈ l, splitSpaceHead e ≠ key) →
    conflictScan gap key inst l = .ok false := by
  intro l
  induction l with
  | nil => intro _; rfl
  | cons x rest ih =>
    intro hk
    simp only [conflictScan]
    rw [if_neg (by simpa using hk x (List.mem_cons_self x rest))]
    exact ih fun e he => hk e (List.mem_cons_of_mem x he)

/-- A scan over parse-clean entries all at least `gap` away reports no
conflict. -/
theorem conflictScan_all_far {gap : Int} {key : String} {inst : Int} :
    ∀ {l : List String},
    (∀ e ∈ l, splitSpaceHead e = key → (fromisoformat e).isSome) →
    (∀ e ∈ l, ∀ d, fromisoformat e = some d → gap ≤ |instant d - inst|) →
    conflictScan gap key inst l = .ok false := by
  intro l
  induction l with
  | nil => intro _ _; rfl
  | cons x rest ih =>
    intro hp hfar
    simp only [conflictScan]
    by_cases hx : splitSpaceHead x = key
    · rw [if_pos (beq_iff_eq.mpr hx)]
      obtain ⟨d, hd⟩ := Option.isSome_iff_exists.mp
        (hp x (List.mem_cons_self x rest) hx)
      rw [hd]
      simp only []
      rw [if_neg (not_lt.mpr (hfar x (List.mem_cons_self x rest) d hd))]
      exact ih (fun e he hk => hp e (List.mem_cons_of_mem x he) hk)
        (fun e he d' hd' => hfar e (List.mem_cons_of_mem x he) d' hd')
    · rw [if_neg (by simpa using hx)]
      exact ih (fun e he hk => hp e (List.mem_cons_of_mem x he) hk)
        (fun e he d' hd' => hfar e (List.mem_cons_of_mem x he) d' hd')

/-- C3 (corrected), counterexample: a candidate and an existing appointment
with EQUAL date components — first 10 characters of the canonical profile,
the spec's definition of the date key — and starts only 900 s apart, on
which the conflict check nonetheless reports NO conflict, because it
compares `split(" ")[0]` keys and the `T`-separated strings differ there. -/
theorem C3_counterexample :
    first10 "2024-01-10T09:00:00" = first10 "2024-01-10T09:15:00" ∧
    fromisoformat "2024-01-10T09:00:00" = some ⟨2024, 1, 10, 32400⟩ ∧
    fromisoformat "2024-01-10T09:15:00" = some ⟨2024, 1, 10, 33300⟩ ∧
    |instant ⟨2024, 1, 10, 33300⟩ - instant ⟨2024, 1, 10, 32400⟩| = 900 ∧
    (900 : Int) < min_gap_seconds ∧
    conflictScan min_gap_seconds (splitSpaceHead "2024-01-10T09:00:00")
      (instant ⟨2024, 1, 10, 32400⟩) ["2024-01-10T09:15:00"] = .ok false :=
  ⟨by decide, by decide, by decide, by decide, by decide, rfl⟩

/-- C3 (corrected), amended claim: for every candidate, existing list whose
key-matching entries parse, and minimum gap, the conflict check reports a
conflict iff some existing appointment's `split(" ")[0]` DATE KEY (the
calendar date exactly on the space-separated profile) equals the
candidate's and the absolute difference of start instants is strictly below
the gap; entries with a different key are never compared, and distances of
exactly the gap or more are not conflicts. -/
theorem C3_conflict_iff (gap : Int) (key : String) (inst : Int)
    (l : List String)
    (hp : ∀ e ∈ l, splitSpaceHead e = key → (fromisoformat e).isSome) :
    (conflictScan gap key inst l = .ok true ↔
      ∃ e ∈ l, splitSpaceHead e = key ∧
        ∃ d, fromisoformat e = some d ∧ |instant d - inst| < gap) ∧
    ((∀ e ∈ l, splitSpaceHead e ≠ key) →
      conflictScan gap key inst l = .ok false) ∧
    ((∀ e ∈ l, ∀ d, fromisoformat e = some d → gap ≤ |instant d - inst|) →
      conflictScan gap key inst l = .ok false) :=
  ⟨conflictScan_true_iff hp, conflictScan_no_key,
    fun hfar => conflictScan_all_far hp hfar⟩

/-- C3 witness: the amended characterisation applied to the concrete
space-profile pair 09:00 and 10:30 on the same date (no conflict, the scan
agrees). -/
theorem C3_conflict_iff_witness :
    (conflictScan min_gap_seconds "2024-01-10" (instant ⟨2024, 1, 10, 32400⟩)
        ["2024-01-10 10:30:00"] = .ok true ↔
      ∃ e ∈ ["2024-01-10 10:30:00"], splitSpaceHead e = "2024-01-10" ∧
        ∃ d, fromisoformat e = some d ∧
          |instant d - instant ⟨2024, 1, 10, 32400⟩| < min_gap_seconds) ∧
    ((∀ e ∈ ["2024-01-10 10:30:00"], splitSpaceHead e ≠ "2024-01-10") →
      conflictScan min_gap_seconds "2024-01-10" (instant ⟨2024, 1, 10, 32400⟩)
        ["2024-01-10 10:30:00"] = .ok false) ∧
    ((∀ e ∈ ["2024-01-10 10:30:00"], ∀ d, fromisoformat e = some d →
        min_gap_seconds ≤ |instant d - instant ⟨2024, 1, 10, 32400⟩|) →
      conflictScan min_gap_seconds "2024-01-10" (instant ⟨2024, 1, 10, 32400⟩)
        ["2024-01-10 10:30:00"] = .ok false) :=
  C3_conflict_iff min_gap_seconds "2024-01-10" (instant ⟨2024, 1, 10, 32400⟩)
    ["2024-01-10 10:30:00"] (by decide)

/-- C4 (confirmed): the requested time of day is accepted exactly when some
window satisfies `start <= t < end`, each window checked independently; at
the window `{09:00, 12:00}` a 09:00:00 request is accepted and a 12:00:00
request is rejected with the time-unavailable message. -/
theorem C4_half_open (t : Nat) (slots : List (String × String))
    (hp : ∀ p ∈ slots, (strptimeHM p.1).isSome ∧ (strptimeHM p.2).isSome) :
    (slotScan t slots = .ok true ↔
      ∃ p ∈ slots, ∃ a b, strptimeHM p.1 = some a ∧ strptimeHM p.2 = some b ∧
        a ≤ t ∧ t < b) ∧
    check_availability (.ok availJan10) "2024-01-10 09:00:00" =
      (true, "Time is available") ∧
    check_availability (.ok availJan10) "2024-01-10 12:00:00" =
      (false, "Selected time is not available") :=
  ⟨slotScan_true_iff hp, rfl, rfl⟩

/-- C4 witness: the half-open characterisation at 09:59:59 against the
window list `[{09:00, 12:00}]`. -/
theorem C4_half_open_witness :
    (slotScan 35999 [("09:00", "12:00")] = .ok true ↔
      ∃ p ∈ [("09:00", "12:00")], ∃ a b,
        strptimeHM p.1 = some a ∧ strptimeHM p.2 = some b ∧
        a ≤ 35999 ∧ 35999 < b) ∧
    check_availability (.ok availJan10) "2024-01-10 09:00:00" =
      (true, "Time is available") ∧
    check_availability (.ok availJan10) "2024-01-10 12:00:00" =
      (false, "Selected time is not available") :=
  C4_half_open 35999 [("09:00", "12:00")] (by decide)

/-- C5 (corrected), counterexample: Scenario A with its instants written as
in the spec — ISO `T` separator — makes the SECOND request commit instead of
being rejected with a conflict: the conflict check's `split(" ")[0]` keys of
the two `T`-separated strings differ, so the 1800 s proximity is never
examined. -/
theorem C5_counterexample :
    runSeq [] [(envSeq "id-1", reqD "2024-01-10T09:00:00"),
               (envSeq "id-2", reqD "2024-01-10T09:30:00"),
               (envSeq "id-3", reqD "2024-01-10T13:00:00")] =
      .ok ([(true, "Appointment created successfully"),
            (true, "Appointment created successfully"),
            (false, "Selected time is not available")],
           [⟨"doctor@x.com", "patient@x.com", "2024-01-10T09:00:00", "id-1"⟩,
            ⟨"doctor@x.com", "patient@x.com", "2024-01-10T09:30:00", "id-2"⟩]) ∧
    ((true, "Appointment created successfully") : Bool × String) ≠
      (false,
       "Appointment time conflicts with an existing appointment within 1 hour") :=
  ⟨rfl, by decide⟩

/-- C5 (corrected), amended claim: Scenario A holds verbatim once the three
requests carry the space-separated canonical profile the code (and its own
unit tests) use, `YYYY-MM-DD HH:MM:SS`: 09:00 commits, 09:30 is rejected
with the conflict message (gap 1800 s), 13:00 is rejected with the
time-unavailable message, and only the first appointment is stored. -/
theorem C5_scenario_A :
    runSeq [] [(envSeq "id-1", reqD "2024-01-10 09:00:00"),
               (envSeq "id-2", reqD "2024-01-10 09:30:00"),
               (envSeq "id-3", reqD "2024-01-10 13:00:00")] =
      .ok ([(true, "Appointment created successfully"),
            (false,
             "Appointment time conflicts with an existing appointment within 1 hour"),
            (false, "Selected time is not available")],
           [⟨"doctor@x.com", "patient@x.com", "2024-01-10 09:00:00", "id-1"⟩]) ∧
    fromisoformat "2024-01-10 09:00:00" = some ⟨2024, 1, 10, 32400⟩ ∧
    fromisoformat "2024-01-10 09:30:00" = some ⟨2024, 1, 10, 34200⟩ ∧
    |instant ⟨2024, 1, 10, 34200⟩ - instant ⟨2024, 1, 10, 32400⟩| = 1800 :=
  ⟨rfl, by decide, by decide, by decide⟩

/-- C6 (corrected), counterexample: a run in which the generated id already
exists in the table (the conditional check fails) and a run in which
`put_item` raises a different `ClientError` produce the IDENTICAL caller
outcome `(False, "Failed to create appointment")` — the repository collapses
both exceptions to `False`, so no duplicate-id reason distinguishable from a
store error ever reaches the caller. -/
theorem C6_counterexample :
    create_appointment ⟨.ok availJan10, true, false, false, false, "id-1"⟩
      [⟨"other@x.com", "patient@x.com", "2024-01-10 09:00:00", "id-1"⟩]
      (reqD "2024-01-10 09:30:00") =
      .ok ((false, "Failed to create appointment"),
           [⟨"other@x.com", "patient@x.com", "2024-01-10 09:00:00", "id-1"⟩],
           []) ∧
    create_appointment ⟨.ok availJan10, true, true, false, false, "id-9"⟩ []
      (reqD "2024-01-10 09:30:00") =
      .ok ((false, "Failed to create appointment"), [], []) :=
  ⟨rfl, rfl⟩

/-- C6 (corrected), amended claim: whether the committing write fails
because the id already exists or because of any other store error, the
repository returns the same `false` with the store unchanged, and the
service turns it into the single rejection "Failed to create appointment" —
the two failure modes are NOT distinguishable by the caller. -/
theorem C6_store_failure (store : Store) (a : StoredAppt) (err : Bool)
    (h : store.any (fun x => x.id == a.id) = true ∨ err = true) :
    repoCreateAppointment store a err = (false, store) := by
  unfold repoCreateAppointment
  rcases h with h | h
  · rw [if_pos h]
  · by_cases hid : store.any (fun x => x.id == a.id) = true
    · rw [if_pos hid]
    · rw [if_neg hid, if_pos h]

/-- C6 witness: the duplicate-id branch at a concrete store. -/
theorem C6_store_failure_witness :
    repoCreateAppointment
      [⟨"other@x.com", "patient@x.com", "2024-01-10 09:00:00", "id-1"⟩]
      ⟨"doctor@x.com", "patient@x.com", "2024-01-10 09:30:00", "id-1"⟩ false =
      (false,
       [⟨"other@x.com", "patient@x.com", "2024-01-10 09:00:00", "id-1"⟩]) :=
  C6_store_failure _ _ false (Or.inl (by decide))

/-- C7 (confirmed): an admission that reaches a successful committing write
reports `Committed` with the fixed success message and appends exactly the
new row; rerunning it under ANY notifier configuration (enabled or not,
SMTP success or failure) yields the same outcome and the same store, only
the notification attempts differing. -/
theorem C7_notifier_frame (env : Env) (store : Store) (appt : Appointment)
    (out : Bool × String) (store1 : Store) (em : List (StoredAppt × Bool))
    (e n : Bool)
    (h : create_appointment env store appt = .ok (out, store1, em))
    (hc : out.1 = true) :
    out = (true, "Appointment created successfully") ∧
    store1 = store ++
      [⟨appt.doctor_email, appt.patient_email, appt.date_time, env.newId⟩] ∧
    create_appointment
      ⟨env.availFetch, env.apptFetchOk, env.putOtherError, e, n, env.newId⟩
      store appt =
      .ok (out, store1,
        if e then
          [(⟨appt.doctor_email, appt.patient_email, appt.date_time,
             env.newId⟩, n)]
        else []) := by
  unfold create_appointment at h
  split at h
  next av msg hca =>
  cases av with
  | false =>
    simp only [Bool.not_false, if_true, Except.ok.injEq, Prod.mk.injEq] at h
    rw [← h.1] at hc
    simp at hc
  | true =>
    simp only [Bool.not_true, Bool.false_eq_true, if_false] at h
    split at h
    next hfx => exact absurd h (by simp)
    next candDT hfx =>
    split at h
    next hcs => exact absurd h (by simp)
    next hcs =>
      simp only [Except.ok.injEq, Prod.mk.injEq] at h
      rw [← h.1] at hc
      simp at hc
    next hcs =>
      simp only [repoCreateAppointment] at h
      split at h
      next hid =>
        simp only [Bool.not_false, if_true, Except.ok.injEq,
          Prod.mk.injEq] at h
        rw [← h.1] at hc
        simp at hc
      next hid =>
        split at h
        next herr =>
          simp only [Bool.not_false, if_true, Except.ok.injEq,
            Prod.mk.injEq] at h
          rw [← h.1] at hc
          simp at hc
        next herr =>
          simp only [Bool.not_true, Bool.false_eq_true, if_false,
            Except.ok.injEq, Prod.mk.injEq] at h
          refine ⟨h.1.symm, h.2.1.symm, ?_⟩
          unfold create_appointment
          rw [hca]
          simp only [Bool.not_true, Bool.false_eq_true, if_false]
          rw [hfx]
          simp only []
          rw [hcs]
          simp only [repoCreateAppointment, if_neg hid, if_neg herr,
            Bool.not_true, Bool.false_eq_true, if_false]
          rw [← h.1, ← h.2.1]

/-- C7 witness: a concrete committed admission replayed with notifications
enabled and the SMTP send failing. -/
theorem C7_notifier_frame_witness :
    ((true, "Appointment created successfully") : Bool × String) =
      (true, "Appointment created successfully") ∧
    ([⟨"doctor@x.com", "patient@x.com", "2024-01-10 09:00:00", "id-1"⟩] :
        Store) =
      [] ++ [⟨"doctor@x.com", "patient@x.com", "2024-01-10 09:00:00", "id-1"⟩] ∧
    create_appointment
      ⟨.ok availJan10, true, false, true, false, "id-1"⟩ []
      (reqD "2024-01-10 09:00:00") =
      .ok ((true, "Appointment created successfully"),
        [⟨"doctor@x.com", "patient@x.com", "2024-01-10 09:00:00", "id-1"⟩],
        if true then
          [(⟨"doctor@x.com", "patient@x.com", "2024-01-10 09:00:00",
             "id-1"⟩, false)]
        else []) :=
  C7_notifier_frame (envSeq "id-1") [] (reqD "2024-01-10 09:00:00")
    (true, "Appointment created successfully")
    [⟨"doctor@x.com", "patient@x.com", "2024-01-10 09:00:00", "id-1"⟩]
    [] true false rfl rfl

/-- C8 (corrected), counterexample: a malformed request `date_time` and a
malformed availability slot coming from the upstream service — an
infrastructure-side data failure — produce the IDENTICAL outcome
`(False, "Unexpected error while checking availability")`: the code has no
dedicated `ValidationError`; malformed input lands in the generic
`except Exception` handler shared with other unexpected upstream errors. -/
theorem C8_counterexample :
    check_availability (.ok availJan10) "not-a-date" =
      (false, "Unexpected error while checking availability") ∧
    check_availability (.ok [("2024-01-10", [("9am", "12:00")])])
      "2024-01-10 09:00:00" =
      (false, "Unexpected error while checking availability") :=
  ⟨rfl, rfl⟩

/-- C8 (corrected), amended claim: malformed date-time input (anything
`datetime.fromisoformat` rejects) is always rejected — never silently
reinterpreted, nothing written — through the generic unexpected-error
rejection, whose message differs from every business rejection
(date/time unavailable, conflict) and from the dedicated fetch-failure
messages, but which is shared with other unexpected errors (e.g. malformed
availability slots), rather than being a distinct `ValidationError`. -/
theorem C8_malformed_rejected (env : Env) (m : AvailMap) (store : Store)
    (appt : Appointment)
    (hv : env.availFetch = .ok m)
    (hbad : fromisoformat appt.date_time = none) :
    create_appointment env store appt =
      .ok ((false, "Unexpected error while checking availability"),
           store, []) ∧
    "Unexpected error while checking availability" ≠
      "Selected date is not available" ∧
    "Unexpected error while checking availability" ≠
      "Selected time is not available" ∧
    "Unexpected error while checking availability" ≠
      "Appointment time conflicts with an existing appointment within 1 hour" ∧
    "Unexpected error while checking availability" ≠
      "Failed to check availability" ∧
    "Unexpected error while checking availability" ≠
      "Error while checking availability" ∧
    "Unexpected error while checking availability" ≠
      "Failed to create appointment" := by
  refine ⟨?_, by decide, by decide, by decide, by decide, by decide, by decide⟩
  have hav : check_availability env.availFetch appt.date_time =
      (false, "Unexpected error while checking availability") := by
    rw [hv]
    simp only [check_availability, hbad]
  unfold create_appointment
  rw [hav]
  rfl

/-- C8 witness: the amended theorem at the concrete malformed input
`"not-a-date"`. -/
theorem C8_malformed_rejected_witness :
    create_appointment ⟨.ok availJan10, true, false, false, false, "id-1"⟩
      [] (reqD "not-a-date") =
      .ok ((false, "Unexpected error while checking availability"), [], []) ∧
    "Unexpected error while checking availability" ≠
      "Selected date is not available" ∧
    "Unexpected error while checking availability" ≠
      "Selected time is not available" ∧
    "Unexpected error while checking availability" ≠
      "Appointment time conflicts with an existing appointment within 1 hour" ∧
    "Unexpected error while checking availability" ≠
      "Failed to check availability" ∧
    "Unexpected error while checking availability" ≠
      "Error while checking availability" ∧
    "Unexpected error while checking availability" ≠
      "Failed to create appointment" :=
  C8_malformed_rejected ⟨.ok availJan10, true, false, false, false, "id-1"⟩
    availJan10 [] (reqD "not-a-date") rfl (by decide)

/-- The repository query over an empty table returns the empty list whatever
the fetch outcome. -/
theorem repoGet_nil (b : Bool) (d : String) :
    repoGetDoctorAppointments b [] d = [] := by
  cases b <;> rfl

/-- C9 (confirmed): issuing the same `(doctor, start_instant)` request twice
sequentially against an empty store — the instant passing the availability
check, the second fetch succeeding and the first write not hitting a store
error — yields exactly one `Committed` (the first) followed by one conflict
rejection (the second), the store holding the single first appointment. -/
theorem C9_idempotent_rejection (env1 env2 : Env) (appt : Appointment)
    (msg : String)
    (hca : check_availability env1.availFetch appt.date_time = (true, msg))
    (havs : env2.availFetch = env1.availFetch)
    (hput : env1.putOtherError = false)
    (hfetch2 : env2.apptFetchOk = true) :
    runSeq [] [(env1, appt), (env2, appt)] =
      .ok ([(true, "Appointment created successfully"),
            (false,
             "Appointment time conflicts with an existing appointment within 1 hour")],
           [⟨appt.doctor_email, appt.patient_email, appt.date_time,
             env1.newId⟩]) := by
  obtain ⟨dt, hfx, hmsg⟩ := check_availability_true hca
  have h1 : create_appointment env1 [] appt =
      .ok ((true, "Appointment created successfully"),
        [⟨appt.doctor_email, appt.patient_email, appt.date_time, env1.newId⟩],
        if env1.emailEnabled then
          [(⟨appt.doctor_email, appt.patient_email, appt.date_time,
             env1.newId⟩, env1.emailOk)]
        else []) := by
    unfold create_appointment
    rw [hca]
    simp only [Bool.not_true, Bool.false_eq_true, if_false]
    rw [repoGet_nil, hfx]
    simp only [List.map_nil, conflictScan, repoCreateAppointment,
      List.any_nil, Bool.false_eq_true, if_false, hput, List.nil_append,
      Bool.not_true]
  have h2 : create_appointment env2
      [⟨appt.doctor_email, appt.patient_email, appt.date_time, env1.newId⟩]
      appt =
      .ok ((false,
        "Appointment time conflicts with an existing appointment within 1 hour"),
        [⟨appt.doctor_email, appt.patient_email, appt.date_time, env1.newId⟩],
        []) := by
    unfold create_appointment
    rw [havs, hca]
    simp only [Bool.not_true, Bool.false_eq_true, if_false]
    rw [hfx]
    simp only [repoGetDoctorAppointments, hfetch2, if_true, List.filter,
      beq_self_eq_true, List.map, conflictScan, hfx, sub_self, abs_zero,
      min_gap_seconds]
    norm_num
  simp only [runSeq, h1, h2]

/-- C9 witness: the same request twice at 09:00 on the available date. -/
theorem C9_idempotent_rejection_witness :
    runSeq [] [(envSeq "id-1", reqD "2024-01-10 09:00:00"),
               (envSeq "id-2", reqD "2024-01-10 09:00:00")] =
      .ok ([(true, "Appointment created successfully"),
            (false,
             "Appointment time conflicts with an existing appointment within 1 hour")],
           [⟨"doctor@x.com", "patient@x.com", "2024-01-10 09:00:00",
             "id-1"⟩]) :=
  C9_idempotent_rejection (envSeq "id-1") (envSeq "id-2")
    (reqD "2024-01-10 09:00:00") "Time is available" rfl rfl rfl rfl

/-- The per-entry update of `addEntry` keeps the key and touches only the
value. -/
theorem updateEntry_eq (d0 t k : String) (v : List String) :
    (fun q : String × List String =>
      if q.1 == d0 then (q.1, q.2 ++ [t]) else q) (k, v) =
    (k, if k == d0 then v ++ [t] else v) := by
  by_cases h : k = d0 <;> simp [h]

/-- `List.lookup` on a cons cell, as an `if`. -/
theorem lookup_cons {α : Type} (d k : String) (w : α)
    (rest : List (String × α)) :
    List.lookup d ((k, w) :: rest) =
      if d == k then some w else List.lookup d rest := by
  cases h : d == k <;> simp [List.lookup, h]

/-- Mapping the append-to-`d0` update over an association list changes only
the value found under `d0`. -/
theorem lookup_map_update (d0 t : String) :
    ∀ (acc : List (String × List String)) (d : String),
    List.lookup d
        (acc.map (fun q => if q.1 == d0 then (q.1, q.2 ++ [t]) else q)) =
      if d = d0 then (List.lookup d0 acc).map (fun v => v ++ [t])
      else List.lookup d acc := by
  intro acc
  induction acc with
  | nil => intro d; by_cases hd : d = d0 <;> simp [hd]
  | cons p acc ih =>
    intro d
    obtain ⟨k, v⟩ := p
    simp only [List.map_cons, updateEntry_eq, lookup_cons, ih d]
    by_cases hd : d = k <;> by_cases hk : k = d0
    · simp_all
    · simp_all
    · simp_all [lookup_cons]
    · have hk2 : ¬d0 = k := fun h => hk h.symm
      simp_all [lookup_cons, hk2]

/-- A key on which `any` fails is absent. -/
theorem lookup_any_false {d0 : String} :
    ∀ {acc : List (String × List String)},
    acc.any (fun q => q.1 == d0) = false → List.lookup d0 acc = none := by
  intro acc
  induction acc with
  | nil => intro _; rfl
  | cons p acc ih =>
    intro h
    obtain ⟨k, v⟩ := p
    simp only [List.any_cons, Bool.or_eq_false_iff] at h
    have h1 : ¬d0 = k := fun he => by
      rw [he] at h
      simp at h
    rw [lookup_cons, if_neg (by simpa using h1)]
    exact ih h.2

/-- A key on which `any` succeeds is present. -/
theorem lookup_some_of_any {d0 : String} :
    ∀ {acc : List (String × List String)},
    acc.any (fun q => q.1 == d0) = true →
    ∃ v, List.lookup d0 acc = some v := by
  intro acc
  induction acc with
  | nil => intro h; simp at h
  | cons p acc ih =>
    intro h
    obtain ⟨k, v⟩ := p
    rw [lookup_cons]
    by_cases hk : d0 = k
    · exact ⟨v, by rw [if_pos (by simpa using hk)]⟩
    · rw [if_neg (by simpa using hk)]
      apply ih
      simp only [List.any_cons, Bool.or_eq_true] at h
      rcases h with h | h
      · exact absurd (by simpa using h : k = d0) (fun he => hk he.symm)
      · exact h

/-- Looking up in an appended association list: the left list wins. -/
theorem lookup_append {α : Type} (d : String) :
    ∀ (l1 l2 : List (String × α)),
    List.lookup d (l1 ++ l2) =
      match List.lookup d l1 with
      | some v => some v
      | none => List.lookup d l2 := by
  intro l1 l2
  induction l1 with
  | nil => rfl
  | cons p l1 ih =>
    obtain ⟨k, v⟩ := p
    rw [List.cons_append, lookup_cons, lookup_cons]
    cases h : d == k <;> simp [h, ih]

/-- Looking a key up after the dict-insertion step of
`get_doctor_appointments`: inserting under `d0` appends to `d0`'s list
(creating it at the end when absent) and leaves every other key unchanged. -/
theorem lookup_addEntry (acc : List (String × List String)) (d0 t d : String) :
    List.lookup d (addEntry acc d0 t) =
      if d = d0 then some (((List.lookup d0 acc).getD []) ++ [t])
      else List.lookup d acc := by
  by_cases hhit : acc.any (fun p => p.1 == d0) = true
  · unfold addEntry
    rw [if_pos hhit, lookup_map_update]
    obtain ⟨v, hv⟩ := lookup_some_of_any hhit
    rw [hv]
    by_cases hd : d = d0 <;> simp [hd, hv]
  · unfold addEntry
    rw [if_neg hhit, lookup_append]
    have hnone : List.lookup d0 acc = none :=
      lookup_any_false (Bool.eq_false_iff.mpr hhit)
    rw [hnone]
    by_cases hd : d = d0
    · subst hd
      rw [hnone]
      simp [lookup_cons]
    · cases hlk : List.lookup d acc <;> simp [hlk, lookup_cons, hd]

/-- The formatting loop on well-split inputs never raises and computes, for
every date key, the in-order list of extracted times, appended to whatever
the accumulator already held under that key. -/
theorem formatLoop_ok :
    ∀ (l : List String) (acc : List (String × List String)),
    (∀ s ∈ l, ∃ p q r, splitSpace s = p :: q :: r) →
    ∃ res, formatLoop acc l = .ok res ∧
      ∀ d, List.lookup d res =
        match List.lookup d acc with
        | some ts0 => some (ts0 ++ groupTimes l d)
        | none =>
          if groupTimes l d = [] then none else some (groupTimes l d) := by
  intro l
  induction l with
  | nil =>
    intro acc _
    refine ⟨acc, rfl, fun d => ?_⟩
    cases h : List.lookup d acc <;> simp [groupTimes, h]
  | cons s rest ih =>
    intro acc hl
    obtain ⟨p, q, r, hsplit⟩ := hl s (List.mem_cons_self s rest)
    have htp : timePart s = String.mk (q.toList.take 5) := by
      simp only [timePart, hsplit]
    have hstep : formatLoop acc (s :: rest) =
        formatLoop (addEntry acc (splitSpaceHead s)
          (String.mk (q.toList.take 5))) rest := by
      simp only [formatLoop, hsplit]
    obtain ⟨res, hres, hlook⟩ :=
      ih (addEntry acc (splitSpaceHead s) (String.mk (q.toList.take 5)))
        (fun e he => hl e (List.mem_cons_of_mem s he))
    refine ⟨res, by rw [hstep]; exact hres, fun d => ?_⟩
    have hgt : groupTimes (s :: rest) d =
        if splitSpaceHead s == d then
          String.mk (q.toList.take 5) :: groupTimes rest d
        else groupTimes rest d := by
      simp only [groupTimes, List.filter_cons]
      cases hc : splitSpaceHead s == d
      · simp [hc]
      · simp [hc, htp]
    by_cases hd : d = splitSpaceHead s
    · have hc : (splitSpaceHead s == d) = true := by simpa using hd.symm
      have hgt2 : groupTimes (s :: rest) d =
          String.mk (q.toList.take 5) :: groupTimes rest d := by
        rw [hgt, if_pos hc]
      rw [hlook d, lookup_addEntry, if_pos hd, ← hd, hgt2]
      cases hacc : List.lookup d acc <;> simp [hacc, List.append_assoc]
    · have hc : (splitSpaceHead s == d) = false := by
        simp only [beq_eq_false_iff_ne, ne_eq]
        exact fun he => hd he.symm
      have hgt2 : groupTimes (s :: rest) d = groupTimes rest d := by
        rw [hgt, if_neg (by simp [hc])]
      rw [hlook d, lookup_addEntry, if_neg hd, hgt2]

/-- C10 (confirmed): the grouping of `get_doctor_appointments` is
well-defined on every row list whose `date_time`s split on a space into at
least two parts (the `YYYY-MM-DD HH:MM:SS` profile), mapping each date key
to the in-order `HH:MM` times of its appointments; and on a row whose
`date_time` uses the ISO `T` separator the `split(" ")[1]` access is out of
bounds, so the error branch is reachable from the public
`GET /appointments/doctor/{doctor_email}` route. -/
theorem C10_formatting (l : List String)
    (hl : ∀ s ∈ l, ∃ p q r, splitSpace s = p :: q :: r) :
    (∃ res, formatAppointments l = .ok res ∧
      ∀ d, List.lookup d res =
        if groupTimes l d = [] then none else some (groupTimes l d)) ∧
    get_doctor_appointments true
      [⟨"doctor@x.com", "patient@x.com", "2024-01-10T09:00:00", "id-1"⟩]
      "doctor@x.com" = .error () := by
  constructor
  · obtain ⟨res, h1, h2⟩ := formatLoop_ok l [] hl
    refine ⟨res, h1, fun d => ?_⟩
    simpa using h2 d
  · rfl

/-- C10 witness: a single space-profile row formats successfully, while the
`T`-separated row raises. -/
theorem C10_formatting_witness :
    (∃ res, formatAppointments ["2024-01-10 09:00:00"] = .ok res ∧
      ∀ d, List.lookup d res =
        if groupTimes ["2024-01-10 09:00:00"] d = [] then none
        else some (groupTimes ["2024-01-10 09:00:00"] d)) ∧
    get_doctor_appointments true
      [⟨"doctor@x.com", "patient@x.com", "2024-01-10T09:00:00", "id-1"⟩]
      "doctor@x.com" = .error () :=
  C10_formatting ["2024-01-10 09:00:00"]
    (by
      intro s hs
      rw [List.mem_singleton] at hs
      subst hs
      exact ⟨"2024-01-10", "09:00:00", [], rfl⟩)
